import Mathlib

/-!
Shallow embedding of `hanzo/warctools/stream.py` and proofs about its record
stream layer: the `bytes_to_eor` skip accounting, the read/readline decrement
bookkeeping, the gzip specializations, and the `open_record_stream` factory.
Byte sources are modelled as lists of bytes with a position; the Record Codec
(`record_parser.parse`) is kept abstract as a state-passing function, since its
implementation lives outside this module.
-/

set_option maxHeartbeats 1000000

namespace Warctools

/-- The `CHUNK_SIZE` constant of stream.py: the bound on a single internal read
performed during skip-to-end-of-record. -/
def CHUNK_SIZE : Nat := 8192

/-- A plain open file object (the raw byte source): its byte contents, the
current position, and whether it has been closed. -/
structure Source where
  data : List Nat
  pos : Nat
  closed : Bool
deriving DecidableEq, Repr

/-- The primitive operations `RecordStream` invokes on its underlying handle
`self.fh`: `read`, `readline`, `tell`, `seek` and `close`. Keeping them
abstract lets the same stream code run over a plain file or a GzipFile. -/
structure FileOps (H : Type) where
  readF : H → Nat → List Nat × H
  readlineF : H → List Nat × H
  tellF : H → Nat
  seekF : H → Int → Nat → H
  closeF : H → H

/-- Bytes returned by a file object's `readline`: everything up to and
including the first newline byte (10), or all remaining bytes. -/
def takeLine : List Nat → List Nat
  | [] => []
  | b :: rest => if b = 10 then [b] else b :: takeLine rest

/-- Python `file.read(count)` on a plain file: up to `count` bytes from the current
position, advancing the position by the number of bytes returned. -/
def srcRead (s : Source) (count : Nat) : List Nat × Source :=
  ((s.data.drop s.pos).take count,
   { s with pos := s.pos + ((s.data.drop s.pos).take count).length })

/-- Python `file.readline()` on a plain file. -/
def srcReadline (s : Source) : List Nat × Source :=
  (takeLine (s.data.drop s.pos),
   { s with pos := s.pos + (takeLine (s.data.drop s.pos)).length })

/-- Python `file.seek(offset, whence)` on a plain file. -/
def srcSeek (s : Source) (offset : Int) (whence : Nat) : Source :=
  { s with pos :=
      ((if whence = 0 then (0 : Int)
        else if whence = 1 then (s.pos : Int)
        else (s.data.length : Int)) + offset).toNat }

/-- The operations of a plain (uncompressed) file object. -/
def fileOps : FileOps Source where
  readF := srcRead
  readlineF := srcReadline
  tellF := fun s => s.pos
  seekF := srcSeek
  closeF := fun s => { s with closed := true }

/-- Model of `gzip.GzipFile(fileobj=raw)`: the decompressed byte sequence with
a position in it, a map `rawPosAt` giving the raw (compressed) file position
reached after a given number of decompressed bytes has been consumed (this map
is determined by the member structure of the compressed file, which we keep
abstract), and the closed flags of the wrapper object and of the wrapped raw
file object. Per the Python library semantics, `GzipFile.close` closes the
wrapper but does not close `fileobj`. -/
structure GzipSource where
  data : List Nat
  pos : Nat
  rawPosAt : Nat → Nat
  memberClosed : Bool
  rawClosed : Bool

/-- Python `GzipFile.read(count)`: up to `count` decompressed bytes. -/
def gzRead (g : GzipSource) (count : Nat) : List Nat × GzipSource :=
  ((g.data.drop g.pos).take count,
   { g with pos := g.pos + ((g.data.drop g.pos).take count).length })

/-- Python `GzipFile.readline()`. -/
def gzReadline (g : GzipSource) : List Nat × GzipSource :=
  (takeLine (g.data.drop g.pos),
   { g with pos := g.pos + (takeLine (g.data.drop g.pos)).length })

/-- The operations of a `GzipFile` handle. `tell` reports the decompressed
position; `close` marks only the wrapper closed, leaving `fileobj` open. -/
def gzipOps : FileOps GzipSource where
  readF := gzRead
  readlineF := gzReadline
  tellF := fun g => g.pos
  seekF := fun g offset whence =>
    { g with pos :=
        ((if whence = 0 then (0 : Int)
          else if whence = 1 then (g.pos : Int)
          else (g.data.length : Int)) + offset).toNat }
  closeF := fun g => { g with memberClosed := true }

/-- Model of `self.raw_fh.tell()`: the position of the raw compressed file underlying a
`GzipFile`, well defined as a function of decompressed consumption. -/
def rawTell (g : GzipSource) : Nat := g.rawPosAt g.pos

/-- The mutable state of a `RecordStream`: the underlying handle `self.fh` and
the `self.bytes_to_eor` counter (a Python int, or `None`). -/
structure StreamState (H : Type) where
  fh : H
  bytes_to_eor : Option Int
deriving DecidableEq

/-- The Record Codec interface: `record_parser.parse(stream, offset)` returns
`(record, errors, offset)` and may read from and mutate the stream (in
particular it may set `bytes_to_eor`). Its implementation is external. -/
abbrev Codec (H R : Type) :=
  StreamState H → Option Nat → (Option R × List String × Option Nat) × StreamState H

/-- Embeds `RecordStream.read(count)`: reads from `self.fh` and, when `bytes_to_eor`
is set, decrements it by the number of bytes actually returned. -/
def rsRead {H : Type} (ops : FileOps H) (st : StreamState H) (count : Nat) :
    List Nat × StreamState H :=
  ((ops.readF st.fh count).1,
   { fh := (ops.readF st.fh count).2,
     bytes_to_eor :=
       st.bytes_to_eor.map (fun b => b - ((ops.readF st.fh count).1.length : Int)) })

/-- Embeds `RecordStream.readline()`: same decrement bookkeeping as `read`. -/
def rsReadline {H : Type} (ops : FileOps H) (st : StreamState H) :
    List Nat × StreamState H :=
  ((ops.readlineF st.fh).1,
   { fh := (ops.readlineF st.fh).2,
     bytes_to_eor :=
       st.bytes_to_eor.map (fun b => b - ((ops.readlineF st.fh).1.length : Int)) })

/-- Embeds `RecordStream.seek(offset, pos)`: passes straight through to
`self.fh.seek`; the rest of the state is untouched. -/
def rsSeek {H : Type} (ops : FileOps H) (st : StreamState H) (offset : Int) (pos : Nat) :
    StreamState H :=
  { st with fh := ops.seekF st.fh offset pos }

/-- Embeds `RecordStream.close()`: it runs `self.fh.close()`. -/
def rsClose {H : Type} (ops : FileOps H) (st : StreamState H) : StreamState H :=
  { st with fh := ops.closeF st.fh }

/-- Termination measure for the skip loop: the pending byte count, when set. -/
def eorMeasure {H : Type} (st : StreamState H) : Nat :=
  match st.bytes_to_eor with
  | some k => k.toNat
  | none => 0

/-- Embeds `RecordStream._skip_to_eor`: raises when `bytes_to_eor` is unset; otherwise
reads chunks of `min CHUNK_SIZE bytes_to_eor` until the counter reaches zero,
raising when a read returns fewer bytes than requested. -/
def skipToEor {H : Type} (ops : FileOps H) (st : StreamState H) :
    Except String (StreamState H) :=
  match h : st.bytes_to_eor with
  | none => .error "bytes_to_eor is unset, cannot skip to end"
  | some k =>
    if hk : 0 < k then
      if hc : (rsRead ops st (min CHUNK_SIZE k.toNat)).1.length < min CHUNK_SIZE k.toNat then
        .error ("expected " ++ toString (min CHUNK_SIZE k.toNat) ++ " bytes but only read "
          ++ toString (rsRead ops st (min CHUNK_SIZE k.toNat)).1.length)
      else
        skipToEor ops (rsRead ops st (min CHUNK_SIZE k.toNat)).2
    else
      .ok st
termination_by eorMeasure st
decreasing_by
  simp only [eorMeasure, rsRead, h, Option.map_some']
  simp only [rsRead, CHUNK_SIZE] at hc ⊢
  omega

/-- Embeds `RecordStream._read_record(offsets)`: skips to the end of the previous
record when `bytes_to_eor` is set, clears the counter, captures
`self.fh.tell()` as the offset when `offsets` is requested, calls
`record_parser.parse(self, offset)`, and returns the triple
`(offset, record, errors)` using the offset value returned by the parser. -/
def readRecord {H R : Type} (ops : FileOps H) (parse : Codec H R) (offsets : Bool)
    (st : StreamState H) :
    Except String ((Option Nat × Option R × List String) × StreamState H) :=
  match (if st.bytes_to_eor = none then Except.ok st else skipToEor ops st) with
  | .error e => .error e
  | .ok st1 =>
    let st2 : StreamState H := { st1 with bytes_to_eor := none }
    let offset : Option Nat := if offsets then some (ops.tellF st2.fh) else none
    let r := parse st2 offset
    .ok ((r.1.2.2, r.1.1, r.1.2.1), r.2)

/-- Loop condition of `RecordStream.read_records`:
`nrecords < limit or limit is None` (under Python 2, `int < None` is false,
so a `None` limit makes the condition true unconditionally). -/
def readRecordsCond (nrecords : Nat) (limit : Option Nat) : Bool :=
  match limit with
  | some l => nrecords < l
  | none => true

/-- Embeds `RecordStream.read_records(limit, offsets)`, run for at most `fuel` loop
iterations starting from iteration count `nrecords`: the list of yielded
`(offset, record, errors)` triples, together with the final stream state or
the error the generator raised. The generator yields each triple and then
stops as soon as the triple carried no record. -/
def readRecords {H R : Type} (ops : FileOps H) (parse : Codec H R) (limit : Option Nat)
    (offsets : Bool) (st : StreamState H) (nrecords : Nat) (fuel : Nat) :
    List (Option Nat × Option R × List String) × Except String (StreamState H) :=
  match fuel with
  | 0 => ([], .ok st)
  | fuel + 1 =>
    if readRecordsCond nrecords limit then
      match readRecord ops parse offsets st with
      | .error e => ([], .error e)
      | .ok (triple, st1) =>
        if triple.2.1.isNone then
          ([triple], .ok st1)
        else
          ((triple :: (readRecords ops parse limit offsets st1 (nrecords + 1) fuel).1),
           (readRecords ops parse limit offsets st1 (nrecords + 1) fuel).2)
    else ([], .ok st)

/-- Embeds `RecordStream.__iter__`, run for at most `fuel` iterations: the records
yielded in order, and the terminal outcome. A record is yielded; no record
and no errors ends the iteration cleanly; no record with errors raises
`StandardError` with the error strings joined by commas. -/
def iterRecords {H R : Type} (ops : FileOps H) (parse : Codec H R) (st : StreamState H)
    (fuel : Nat) : List R × Except String (StreamState H) :=
  match fuel with
  | 0 => ([], .ok st)
  | fuel + 1 =>
    match readRecord ops parse false st with
    | .error e => ([], .error e)
    | .ok (triple, st1) =>
      match triple.2.1 with
      | some r =>
        ((r :: (iterRecords ops parse st1 fuel).1), (iterRecords ops parse st1 fuel).2)
      | none =>
        if triple.2.2 = [] then ([], .ok st1)
        else ([], .error ("Errors while decoding " ++ String.intercalate "," triple.2.2))

/-- Embeds `GzipRecordStream.__init__(file_handle, record_parser)`: wraps the raw
handle in a `GzipFile` and remembers the raw handle as `self.raw_fh`.
`decompressed` and `rawPosAt` abstract the gzip decoding of the raw bytes. -/
def mkGzipRecordStream (raw : Source) (decompressed : List Nat) (rawPosAt : Nat → Nat) :
    StreamState GzipSource :=
  { fh := { data := decompressed, pos := 0, rawPosAt := rawPosAt,
            memberClosed := false, rawClosed := raw.closed },
    bytes_to_eor := none }

/-- Embeds `GzipFileStream.__init__(file_handle, record)`: wraps the raw handle in a
`GzipFile`; no separate raw handle is kept. -/
def mkGzipFileStream (raw : Source) (decompressed : List Nat) (rawPosAt : Nat → Nat) :
    StreamState GzipSource :=
  { fh := { data := decompressed, pos := 0, rawPosAt := rawPosAt,
            memberClosed := false, rawClosed := raw.closed },
    bytes_to_eor := none }

/-- Embeds `GzipRecordStream._read_record(offsets)`: same skip accounting as the base
class, then captures `self.raw_fh.tell()` as the offset, invokes the parser
with `offset=None`, discards the offset the parser returns, and attaches the
captured raw offset to the returned triple. -/
def gzipReadRecord {R : Type} (parse : Codec GzipSource R) (offsets : Bool)
    (st : StreamState GzipSource) :
    Except String ((Option Nat × Option R × List String) × StreamState GzipSource) :=
  match (if st.bytes_to_eor = none then Except.ok st else skipToEor gzipOps st) with
  | .error e => .error e
  | .ok st1 =>
    let st2 : StreamState GzipSource := { st1 with bytes_to_eor := none }
    let offset : Option Nat := if offsets then some (rawTell st2.fh) else none
    let r := parse st2 none
    .ok ((offset, r.1.1, r.1.2.1), r.2)

/-- Embeds `GzipFileStream._read_record(offsets)`: delegates to the base class
implementation with offsets disabled, ignoring the caller's argument. -/
def gzipFileReadRecord {R : Type} (parse : Codec GzipSource R) (offsets : Bool)
    (st : StreamState GzipSource) :
    Except String ((Option Nat × Option R × List String) × StreamState GzipSource) :=
  readRecord gzipOps parse false st

/-- Python `str.startswith`, computed on the character lists. -/
def startswith (a b : String) : Bool := b.data.isPrefixOf a.data

/-- Python `str.endswith`, computed on the character lists. -/
def endswith (a b : String) : Bool := b.data.isSuffixOf a.data

/-- The external calls `open_record_stream` makes: `open` on a local path,
`s3.open_url`, `is_gzip_file` and `guess_record_type`. -/
structure OpenEnv where
  openLocal : String → String → Source
  s3OpenUrl : String → Option Int → Option Nat → Source
  isGzipFile : Source → Bool
  guessRecordType : Source → Option String

/-- The stream class `open_record_stream` instantiates. -/
inductive StreamKind where
  | plainStream
  | gzipRecordStream
  | gzipFileStream
deriving DecidableEq, Repr

/-- Embeds `open_record_stream(record_class, filename, file_handle, mode, gzip,
offset, length)`: resolves a handle (opening the local file and seeking to
`offset` when given, or delegating to s3 with `offset` and `length` for
`s3://` locators), guesses the record class when absent, autodetects gzip
from the `.gz` suffix or the magic bytes, and picks the stream class. The
result records the chosen class, the handle, and the record class name. -/
def open_record_stream (env : OpenEnv) (record_class : Option String)
    (filename : Option String) (file_handle : Option Source) (mode : String)
    (gz : String) (offset : Option Int) (length : Option Nat) :
    Except String (StreamKind × Source × String) :=
  match (match file_handle with
         | some fh => Except.ok fh
         | none =>
           match filename with
           | none => Except.error "filename is None"
           | some fn =>
             if startswith fn "s3://" then Except.ok (env.s3OpenUrl fn offset length)
             else
               match offset with
               | some o => Except.ok (srcSeek (env.openLocal fn mode) o 0)
               | none => Except.ok (env.openLocal fn mode)) with
  | .error e => .error e
  | .ok fh =>
    match (match record_class with
           | none => env.guessRecordType fh
           | some c => some c) with
    | none => .error "Failed to guess compression"
    | some rc =>
      let gz2 : String :=
        if gz = "auto" then
          (if (match filename with
               | some fn => endswith fn ".gz"
               | none => false) || env.isGzipFile fh then "record" else "none")
        else gz
      if gz2 = "record" then .ok (.gzipRecordStream, fh, rc)
      else if gz2 = "file" then .ok (.gzipFileStream, fh, rc)
      else .ok (.plainStream, fh, rc)

/-- Unfolding of `skipToEor` when the counter is set to `k`: one loop test,
and when positive, one chunked read followed by either the short-read error or
the next loop round. -/
theorem skipToEor_some {H : Type} (ops : FileOps H) (st : StreamState H) (k : Int)
    (hk : st.bytes_to_eor = some k) :
    skipToEor ops st =
      if _h1 : 0 < k then
        if _h2 : (rsRead ops st (min CHUNK_SIZE k.toNat)).1.length < min CHUNK_SIZE k.toNat then
          .error ("expected " ++ toString (min CHUNK_SIZE k.toNat) ++ " bytes but only read "
            ++ toString (rsRead ops st (min CHUNK_SIZE k.toNat)).1.length)
        else skipToEor ops (rsRead ops st (min CHUNK_SIZE k.toNat)).2
      else .ok st := by
  rw [skipToEor]
  split
  · rename_i heq; rw [hk] at heq; cases heq
  · rename_i k1 heq
    rw [hk] at heq
    injection heq with heq
    subst heq
    rfl

/-- When the underlying plain file still holds at least the pending byte
count, the skip loop consumes exactly that many bytes and leaves the counter
at zero (stated as `k - k.toNat`, which also covers a non-positive counter,
where the loop does nothing). -/
theorem skipToEor_ok {n : Nat} :
    ∀ (d : List Nat) (p : Nat) (c : Bool) (k : Int), k.toNat = n →
    k.toNat ≤ d.length - p →
    skipToEor fileOps ⟨⟨d, p, c⟩, some k⟩ =
      .ok ⟨⟨d, p + k.toNat, c⟩, some (k - (k.toNat : Int))⟩ := by
  induction n using Nat.strong_induction_on with
  | _ n ih =>
    intro d p c k hn henough
    rw [skipToEor_some fileOps _ k rfl]
    split
    · rename_i hkpos
      split
      · rename_i hc
        exfalso
        simp only [rsRead, fileOps, srcRead, List.length_take, List.length_drop] at hc
        omega
      · rename_i hc
        have hst : (rsRead fileOps ⟨⟨d, p, c⟩, some k⟩ (min CHUNK_SIZE k.toNat)).2
            = ⟨⟨d, p + min CHUNK_SIZE k.toNat, c⟩,
               some (k - ((min CHUNK_SIZE k.toNat : Nat) : Int))⟩ := by
          simp only [rsRead, fileOps, srcRead, Option.map_some', List.length_take,
            List.length_drop, StreamState.mk.injEq, Source.mk.injEq, Option.some.injEq,
            true_and, and_true]
          omega
        rw [hst]
        have hlt : (k - ((min CHUNK_SIZE k.toNat : Nat) : Int)).toNat < n := by
          simp only [CHUNK_SIZE]
          omega
        have hrec := ih _ hlt d (p + min CHUNK_SIZE k.toNat) c
          (k - ((min CHUNK_SIZE k.toNat : Nat) : Int)) rfl (by omega)
        rw [hrec]
        simp only [Except.ok.injEq, StreamState.mk.injEq, Source.mk.injEq,
          Option.some.injEq, true_and, and_true]
        omega
    · rename_i hkpos
      simp only [Except.ok.injEq, StreamState.mk.injEq, Source.mk.injEq,
        Option.some.injEq, true_and, and_true]
      omega

/-- When the underlying plain file holds fewer bytes than the positive pending
count, the skip loop raises the short-read error. -/
theorem skipToEor_truncated {n : Nat} :
    ∀ (d : List Nat) (p : Nat) (c : Bool) (k : Int), k.toNat = n → 0 < k →
    d.length - p < k.toNat →
    ∃ e, skipToEor fileOps ⟨⟨d, p, c⟩, some k⟩ = .error e := by
  induction n using Nat.strong_induction_on with
  | _ n ih =>
    intro d p c k hn hkpos hshort
    rw [skipToEor_some fileOps _ k rfl]
    rw [dif_pos hkpos]
    by_cases hc : (rsRead fileOps ⟨⟨d, p, c⟩, some k⟩ (min CHUNK_SIZE k.toNat)).1.length
        < min CHUNK_SIZE k.toNat
    · rw [dif_pos hc]
      exact ⟨_, rfl⟩
    · rw [dif_neg hc]
      have hlen : (rsRead fileOps ⟨⟨d, p, c⟩, some k⟩ (min CHUNK_SIZE k.toNat)).1.length
          = min (min CHUNK_SIZE k.toNat) (d.length - p) := by
        simp only [rsRead, fileOps, srcRead, List.length_take, List.length_drop]
      rw [hlen] at hc
      have hst : (rsRead fileOps ⟨⟨d, p, c⟩, some k⟩ (min CHUNK_SIZE k.toNat)).2
          = ⟨⟨d, p + min (min CHUNK_SIZE k.toNat) (d.length - p), c⟩,
             some (k - ((min (min CHUNK_SIZE k.toNat) (d.length - p) : Nat) : Int))⟩ := by
        simp only [rsRead, fileOps, srcRead, Option.map_some', List.length_take,
          List.length_drop, StreamState.mk.injEq, Source.mk.injEq, Option.some.injEq,
          true_and, and_true]
      rw [hst]
      exact ih (k - ((min (min CHUNK_SIZE k.toNat) (d.length - p) : Nat) : Int)).toNat
        (by simp only [CHUNK_SIZE] at hc ⊢; omega) d
        (p + min (min CHUNK_SIZE k.toNat) (d.length - p)) c
        (k - ((min (min CHUNK_SIZE k.toNat) (d.length - p) : Nat) : Int)) rfl
        (by simp only [CHUNK_SIZE] at hc ⊢; omega)
        (by simp only [CHUNK_SIZE] at hc ⊢; omega)

/-- C1: when the previous record left `bytes_to_eor = k > 0` and the plain
underlying file still holds at least `k` unread bytes, `_read_record` first
consumes exactly `k` bytes through the chunked skip, clears the counter to
`None`, and only then captures the offset and invokes the codec: the codec
runs on a stream positioned exactly `k` bytes past the start of the unread
region with a cleared counter, the captured offset equals that position, and
the skip does not fail. -/
theorem c1_skip_exact {R : Type} (parse : Codec Source R) (offsets : Bool)
    (d : List Nat) (p : Nat) (c : Bool) (k : Int)
    (hkpos : 0 < k) (henough : k.toNat ≤ d.length - p) :
    readRecord fileOps parse offsets ⟨⟨d, p, c⟩, some k⟩ =
      (let st2 : StreamState Source := ⟨⟨d, p + k.toNat, c⟩, none⟩
       let offset : Option Nat := if offsets then some (p + k.toNat) else none
       let r := parse st2 offset
       Except.ok ((r.1.2.2, r.1.1, r.1.2.1), r.2)) := by
  unfold readRecord
  rw [if_neg (by simp), skipToEor_ok d p c k rfl henough]
  rfl

/-- Witness for C1: counter 2 over a 3-byte file; the codec then starts at
position 2 and the captured offset is 2. -/
theorem c1_skip_exact_witness :
    (0 : Int) < 2 ∧ (2 : Int).toNat ≤ ([7, 8, 9] : List Nat).length - 0 ∧
    readRecord fileOps (fun st o => (((none : Option Nat), [], o), st)) true
        ⟨⟨[7, 8, 9], 0, false⟩, some 2⟩ =
      Except.ok ((some 2, (none : Option Nat), ([] : List String)),
        ⟨⟨[7, 8, 9], 2, false⟩, none⟩) := by
  refine ⟨by decide, by decide, ?_⟩
  rw [c1_skip_exact (fun st o => (((none : Option Nat), [], o), st)) true
    [7, 8, 9] 0 false 2 (by decide) (by decide)]
  rfl

/-- C2: with `bytes_to_eor = k > 0` and fewer than `k` bytes left in the plain
underlying file, the skip raises the short-read error instead of silently
completing, and `_read_record` propagates that failure. -/
theorem c2_truncation_error {R : Type} (parse : Codec Source R) (offsets : Bool)
    (d : List Nat) (p : Nat) (c : Bool) (k : Int)
    (hkpos : 0 < k) (hshort : d.length - p < k.toNat) :
    ∃ e, skipToEor fileOps ⟨⟨d, p, c⟩, some k⟩ = .error e ∧
      readRecord fileOps parse offsets ⟨⟨d, p, c⟩, some k⟩ = .error e := by
  obtain ⟨e, he⟩ := skipToEor_truncated d p c k rfl hkpos hshort
  refine ⟨e, he, ?_⟩
  unfold readRecord
  rw [if_neg (by simp), he]

/-- Witness for C2: counter 2 over a 1-byte file raises. -/
theorem c2_truncation_error_witness :
    (0 : Int) < 2 ∧ ([0] : List Nat).length - 0 < (2 : Int).toNat ∧
    ∃ e, skipToEor fileOps ⟨⟨[0], 0, false⟩, some 2⟩ = .error e ∧
      readRecord fileOps (fun st o => (((none : Option Nat), [], o), st)) true
        ⟨⟨[0], 0, false⟩, some 2⟩ = .error e :=
  ⟨by decide, by decide,
   c2_truncation_error (fun st o => (((none : Option Nat), [], o), st)) true
     [0] 0 false 2 (by decide) (by decide)⟩

/-- Counterexample to C3 as stated: with `bytes_to_eor = 1`, a `read(2)` on a
file still holding two bytes returns two bytes and drives the counter to `-1`,
a negative value. -/
theorem c3_negative_counter :
    (rsRead fileOps ⟨⟨[0, 0], 0, false⟩, some 1⟩ 2).2.bytes_to_eor = some (-1) ∧
    ¬ (0 : Int) ≤ -1 := by
  constructor
  · rfl
  · decide

/-- C3 as amended: `read` and `readline` decrement the counter by exactly the
number of bytes actually returned; the counter stays non-negative provided the
bytes returned do not exceed its current value, but the code does not clamp,
so a longer read drives it negative. -/
theorem c3_decrement_exact {H : Type} (ops : FileOps H) (st : StreamState H)
    (count : Nat) (k : Int) (hk : st.bytes_to_eor = some k) :
    ((rsRead ops st count).2.bytes_to_eor
        = some (k - ((rsRead ops st count).1.length : Int)) ∧
      (((rsRead ops st count).1.length : Int) ≤ k →
        ∃ k2, (rsRead ops st count).2.bytes_to_eor = some k2 ∧ 0 ≤ k2)) ∧
    ((rsReadline ops st).2.bytes_to_eor
        = some (k - ((rsReadline ops st).1.length : Int)) ∧
      (((rsReadline ops st).1.length : Int) ≤ k →
        ∃ k2, (rsReadline ops st).2.bytes_to_eor = some k2 ∧ 0 ≤ k2)) := by
  refine ⟨⟨?_, fun h => ?_⟩, ?_, fun h => ?_⟩
  · simp only [rsRead, hk, Option.map_some']
  · exact ⟨k - ((rsRead ops st count).1.length : Int),
      by simp only [rsRead, hk, Option.map_some'], by omega⟩
  · simp only [rsReadline, hk, Option.map_some']
  · exact ⟨k - ((rsReadline ops st).1.length : Int),
      by simp only [rsReadline, hk, Option.map_some'], by omega⟩

/-- Witness for the amended C3 at a concrete stream and read size. -/
theorem c3_decrement_exact_witness :
    ((⟨⟨[0, 0, 0], 0, false⟩, some 2⟩ : StreamState Source).bytes_to_eor = some 2) ∧
    ((rsRead fileOps ⟨⟨[0, 0, 0], 0, false⟩, some 2⟩ 1).2.bytes_to_eor
        = some (2 - ((rsRead fileOps ⟨⟨[0, 0, 0], 0, false⟩, some 2⟩ 1).1.length : Int)) ∧
      (((rsRead fileOps ⟨⟨[0, 0, 0], 0, false⟩, some 2⟩ 1).1.length : Int) ≤ 2 →
        ∃ k2, (rsRead fileOps ⟨⟨[0, 0, 0], 0, false⟩, some 2⟩ 1).2.bytes_to_eor
            = some k2 ∧ 0 ≤ k2)) :=
  ⟨rfl, (c3_decrement_exact fileOps ⟨⟨[0, 0, 0], 0, false⟩, some 2⟩ 1 2 rfl).1⟩

/-- C4: `GzipRecordStream._read_record` with offsets requested returns, as the
offset of the triple, the raw underlying file's position captured immediately
before invoking the codec; the codec is invoked with offset hint `None`, and
the offset the codec returns is discarded in favour of the captured one. The
hypothesis fixes the state `st1` the skip step produced (it is `st` itself
when no record was pending). -/
theorem c4_gzip_raw_offset {R : Type} (parse : Codec GzipSource R)
    (st st1 : StreamState GzipSource)
    (hskip : (if st.bytes_to_eor = none then Except.ok st
              else skipToEor gzipOps st) = Except.ok st1) :
    gzipReadRecord parse true st =
      Except.ok ((some (rawTell st1.fh),
        (parse ⟨st1.fh, none⟩ none).1.1, (parse ⟨st1.fh, none⟩ none).1.2.1),
        (parse ⟨st1.fh, none⟩ none).2) := by
  unfold gzipReadRecord
  rw [hskip]
  rfl

/-- A concrete `GzipFile` handle used by witnesses: one decompressed byte,
raw position map `n + 40`, both closed flags false. -/
def gzSample : GzipSource := ⟨[5], 0, fun n => n + 40, false, false⟩

/-- A concrete `GzipRecordStream` state over `gzSample` with no pending
record. -/
def gzSampleState : StreamState GzipSource := ⟨gzSample, none⟩

/-- Witness for C4: no pending record, so the skip step is the identity; the
codec returns a dummy offset `some 99`, which is discarded for the captured
raw position `40`. -/
theorem c4_gzip_raw_offset_witness :
    ((if gzSampleState.bytes_to_eor = none then Except.ok gzSampleState
      else skipToEor gzipOps gzSampleState) = Except.ok gzSampleState) ∧
    gzipReadRecord (R := Nat) (fun st _ => ((some 7, ["w"], some 99), st)) true
        gzSampleState =
      Except.ok ((some 40, some 7, ["w"]), ⟨gzSample, none⟩) := by
  refine ⟨rfl, ?_⟩
  rw [c4_gzip_raw_offset (fun st _ => ((some 7, ["w"], some 99), st))
    gzSampleState gzSampleState rfl]
  rfl

/-- Modelled from the spec: the Record Codec "does not recompute offset
itself" — the offset it returns in its result triple is the offset hint it was
given. The codec implementations live outside this module. -/
def CodecReturnsHint {H R : Type} (parse : Codec H R) : Prop :=
  ∀ st hint, (parse st hint).1.2.2 = hint

/-- C5: `GzipFileStream._read_record` ignores the caller's `offsets` argument
and delegates to the base class with offsets disabled, so (with a codec that
returns its offset hint) the offset component of every returned triple is
`None`. -/
theorem c5_whole_file_no_offset {R : Type} (parse : Codec GzipSource R)
    (offsets : Bool) (st : StreamState GzipSource)
    (hcodec : CodecReturnsHint parse) :
    gzipFileReadRecord parse offsets st = readRecord gzipOps parse false st ∧
    ∀ triple st2, gzipFileReadRecord parse offsets st = Except.ok (triple, st2) →
      triple.1 = none := by
  refine ⟨rfl, ?_⟩
  intro triple st2 h
  unfold gzipFileReadRecord readRecord at h
  revert h
  cases hskip : (if st.bytes_to_eor = none then Except.ok st
                 else skipToEor gzipOps st) with
  | error e => intro h; cases h
  | ok st1 =>
    intro h
    injection h with h
    injection h with h1 h2
    subst h1
    exact hcodec ⟨st1.fh, none⟩ none

/-- Witness for C5 with a hint-returning codec on a concrete stream. -/
theorem c5_whole_file_no_offset_witness :
    CodecReturnsHint (H := GzipSource) (R := Nat) (fun st hint => ((some 3, [], hint), st)) ∧
    gzipFileReadRecord (R := Nat) (fun st hint => ((some 3, [], hint), st)) true
        gzSampleState =
      readRecord gzipOps (fun st hint => ((some 3, [], hint), st)) false
        gzSampleState ∧
    ∀ triple st2,
      gzipFileReadRecord (R := Nat) (fun st hint => ((some 3, [], hint), st)) true
          gzSampleState = Except.ok (triple, st2) →
        triple.1 = none := by
  refine ⟨fun st hint => rfl, ?_⟩
  exact c5_whole_file_no_offset (fun st hint => ((some 3, [], hint), st)) true
    gzSampleState (fun st hint => rfl)

/-- Counterexample to C8 as stated: a seek on a stream whose counter is
`some 5` leaves the counter at `some 5`; it is not cleared to `None`. -/
theorem c8_seek_does_not_clear :
    (rsSeek fileOps ⟨⟨[0, 0, 0], 0, false⟩, some 5⟩ 2 0).bytes_to_eor = some 5 ∧
    (rsSeek fileOps ⟨⟨[0, 0, 0], 0, false⟩, some 5⟩ 2 0).bytes_to_eor ≠ none := by
  constructor
  · rfl
  · simp [rsSeek]

/-- C8 as amended: `seek` passes through to the underlying source positioning
primitive and leaves `bytes_to_eor` unchanged (the code does not clear it). -/
theorem c8_seek_passthrough {H : Type} (ops : FileOps H) (st : StreamState H)
    (offset : Int) (pos : Nat) :
    (rsSeek ops st offset pos).fh = ops.seekF st.fh offset pos ∧
    (rsSeek ops st offset pos).bytes_to_eor = st.bytes_to_eor :=
  ⟨rfl, rfl⟩

/-- A concrete `GzipRecordStream` over a two-byte raw file, after `close()`. -/
def closedGzipStream : StreamState GzipSource :=
  rsClose gzipOps (mkGzipRecordStream ⟨[31, 139], 0, false⟩ [] (fun n => n))

/-- Counterexample to C9 as stated: closing a `GzipRecordStream` built over a
raw file closes only the `GzipFile` wrapper; the raw byte source supplied at
construction is left open. -/
theorem c9_close_leaves_raw_open :
    closedGzipStream.fh.rawClosed = false ∧
    closedGzipStream.fh.memberClosed = true := ⟨rfl, rfl⟩

/-- C9 as amended: `close()` closes the stream's immediate handle `self.fh`:
for the uncompressed stream that is the raw source itself, but for the two
gzip-wrapped streams only the `GzipFile` wrapper is closed and the raw source
keeps its previous open/closed state (`GzipFile.close` does not close
`fileobj`). -/
theorem c9_close_behaviour (st : StreamState Source) (gst : StreamState GzipSource) :
    (rsClose fileOps st).fh.closed = true ∧
    (rsClose gzipOps gst).fh.memberClosed = true ∧
    (rsClose gzipOps gst).fh.rawClosed = gst.fh.rawClosed :=
  ⟨rfl, rfl, rfl⟩

/-- C10: for a locally opened file (`file_handle` absent, non-s3 filename),
`open_record_stream` never consults `length`: any two values of `length` give
the same result. -/
theorem c10_length_unused (env : OpenEnv) (record_class : Option String)
    (fn : String) (mode gz : String) (offset : Option Int) (l1 l2 : Option Nat)
    (h : startswith fn "s3://" = false) :
    open_record_stream env record_class (some fn) none mode gz offset l1 =
    open_record_stream env record_class (some fn) none mode gz offset l2 := by
  simp only [open_record_stream, h, Bool.false_eq_true, if_false]

/-- Witness for C10: a concrete environment and local filename, with
`length = some 10` versus `length = none`. -/
theorem c10_length_unused_witness :
    startswith "a.warc" "s3://" = false ∧
    open_record_stream
        ⟨fun fn mode => ⟨[1], 0, false⟩, fun fn o l => ⟨[2], 0, false⟩,
         fun fh => false, fun fh => some "warc"⟩
        none (some "a.warc") none "rb+" "auto" none (some 10) =
      open_record_stream
        ⟨fun fn mode => ⟨[1], 0, false⟩, fun fn o l => ⟨[2], 0, false⟩,
         fun fh => false, fun fh => some "warc"⟩
        none (some "a.warc") none "rb+" "auto" none none := by
  refine ⟨by decide, ?_⟩
  exact c10_length_unused
    ⟨fun fn mode => ⟨[1], 0, false⟩, fun fn o l => ⟨[2], 0, false⟩,
     fun fh => false, fun fh => some "warc"⟩
    none "a.warc" "rb+" "auto" none (some 10) none (by decide)

/-- C6: one unfolding of plain iteration. A decoded record is yielded in front
of the rest of the sequence, so already-yielded records are never retracted
when a later step fails; a step with no record and no errors ends the
sequence cleanly; a step with no record but a non-empty error list fails with
a single aggregate error joining the error messages with commas. -/
theorem c6_iter_behaviour {H R : Type} (ops : FileOps H) (parse : Codec H R)
    (st : StreamState H) (fuel : Nat) :
    (∀ o r errs st1, readRecord ops parse false st = .ok ((o, some r, errs), st1) →
        iterRecords ops parse st (fuel + 1) =
          ((r :: (iterRecords ops parse st1 fuel).1),
           (iterRecords ops parse st1 fuel).2)) ∧
    (∀ o st1, readRecord ops parse false st = .ok ((o, none, []), st1) →
        iterRecords ops parse st (fuel + 1) = ([], .ok st1)) ∧
    (∀ o errs st1, readRecord ops parse false st = .ok ((o, none, errs), st1) →
        errs ≠ [] →
        iterRecords ops parse st (fuel + 1) =
          ([], .error ("Errors while decoding " ++ String.intercalate "," errs))) := by
  refine ⟨?_, ?_, ?_⟩
  · intro o r errs st1 h
    rw [iterRecords, h]
  · intro o st1 h
    rw [iterRecords, h]
    rfl
  · intro o errs st1 h hne
    rw [iterRecords, h]
    simp only [if_neg hne]

/-- Witness for C6: a codec that reports two errors and no record makes a
one-step iteration fail with the comma-joined aggregate message. -/
theorem c6_iter_behaviour_witness :
    readRecord fileOps (fun st2 o => (((none : Option Nat), ["a", "b"], o), st2)) false
        ⟨⟨[], 0, false⟩, none⟩ =
      Except.ok (((none : Option Nat), (none : Option Nat), ["a", "b"]),
        (⟨⟨[], 0, false⟩, none⟩ : StreamState Source)) ∧
    (["a", "b"] : List String) ≠ [] ∧
    iterRecords fileOps (fun st2 o => (((none : Option Nat), ["a", "b"], o), st2))
        ⟨⟨[], 0, false⟩, none⟩ 1 =
      ([], .error "Errors while decoding a,b") := by
  refine ⟨rfl, by decide, ?_⟩
  have h := (c6_iter_behaviour fileOps
    (fun st2 o => (((none : Option Nat), ["a", "b"], o), st2))
    ⟨⟨[], 0, false⟩, none⟩ 0).2.2 none ["a", "b"] ⟨⟨[], 0, false⟩, none⟩ rfl (by decide)
  rw [h]
  rfl

/-- In a yielded triple list, a triple with no record occurs only as the final
element: the generator yields it and then stops. -/
def noRecordOnlyLast {R : Type} (l : List (Option Nat × Option R × List String)) : Prop :=
  ∀ j t, l[j]? = some t → t.2.1 = none → j + 1 = l.length

/-- C7: `read_records` yields at most `limit - nrecords` triples when `limit`
is an integer; a no-record triple is always the last thing yielded (it is
itself yielded, and nothing follows it); the step after a no-record result
yields exactly that one triple and stops; and when `limit` is `None` the loop
condition never blocks, so the iteration count is irrelevant. -/
theorem c7_read_records_behaviour {H R : Type} (ops : FileOps H) (parse : Codec H R)
    (offsets : Bool) :
    (∀ l st n fuel,
        (readRecords ops parse (some l) offsets st n fuel).1.length ≤ l - n) ∧
    (∀ limit st n fuel,
        noRecordOnlyLast (readRecords ops parse limit offsets st n fuel).1) ∧
    (∀ limit st n fuel triple st1, readRecordsCond n limit = true →
        readRecord ops parse offsets st = .ok (triple, st1) → triple.2.1 = none →
        readRecords ops parse limit offsets st n (fuel + 1) = ([triple], .ok st1)) ∧
    (∀ st n m fuel,
        readRecords ops parse none offsets st n fuel =
          readRecords ops parse none offsets st m fuel) := by
  refine ⟨?_, ?_, ?_, ?_⟩
  · intro l st n fuel
    induction fuel generalizing st n with
    | zero => simp [readRecords]
    | succ fuel ih =>
      rw [readRecords]
      split
      · rename_i hcond
        simp only [readRecordsCond, decide_eq_true_eq] at hcond
        split
        · simp
        · rename_i triple st1 heq
          split
          · rename_i hnone
            simp only [List.length_cons, List.length_nil]
            omega
          · rename_i hnone
            simp only [List.length_cons]
            have := ih st1 (n + 1)
            omega
      · simp
  · intro limit st n fuel
    induction fuel generalizing st n with
    | zero => intro j t hj hn; simp [readRecords] at hj
    | succ fuel ih =>
      rw [readRecords]
      split
      · split
        · intro j t hj hn; simp at hj
        · rename_i triple st1 heq
          split
          · intro j t hj hn
            cases j with
            | zero => simp
            | succ j => simp at hj
          · rename_i hnone
            intro j t hj hn
            cases j with
            | zero =>
              simp only [List.getElem?_cons_zero, Option.some.injEq] at hj
              subst hj
              rw [hn] at hnone
              simp at hnone
            | succ j =>
              simp only [List.getElem?_cons_succ] at hj
              have := ih st1 (n + 1) j t hj hn
              simp only [List.length_cons]
              omega
      · intro j t hj hn; simp at hj
  · intro limit st n fuel triple st1 hcond hrr hnone
    rw [readRecords, hcond, if_pos rfl, hrr]
    simp only [hnone, Option.isNone_none, if_true]
  · intro st n m fuel
    induction fuel generalizing st n m with
    | zero => rfl
    | succ fuel ih =>
      rw [readRecords, readRecords]
      simp only [readRecordsCond, if_true]
      cases hrr : readRecord ops parse offsets st with
      | error e => rfl
      | ok pr =>
        obtain ⟨triple, st1⟩ := pr
        by_cases hnone : triple.2.1.isNone
        · simp [hnone]
        · simp only [hnone, if_neg, ih st1 (n + 1) (m + 1)]

/-- Witness for C7: a codec yielding no record and one error makes
`read_records(limit=5)` yield exactly the one no-record triple and stop. -/
theorem c7_read_records_behaviour_witness :
    readRecordsCond 0 (some 5) = true ∧
    readRecord fileOps (fun st2 o => (((none : Option Nat), ["e"], o), st2)) true
        ⟨⟨[], 0, false⟩, none⟩ =
      Except.ok ((some 0, (none : Option Nat), ["e"]),
        (⟨⟨[], 0, false⟩, none⟩ : StreamState Source)) ∧
    ((some 0, (none : Option Nat), ["e"]) :
        Option Nat × Option Nat × List String).2.1 = none ∧
    readRecords fileOps (fun st2 o => (((none : Option Nat), ["e"], o), st2))
        (some 5) true ⟨⟨[], 0, false⟩, none⟩ 0 3 =
      ([(some 0, none, ["e"])], .ok ⟨⟨[], 0, false⟩, none⟩) :=
  ⟨rfl, rfl, rfl,
   (c7_read_records_behaviour fileOps
     (fun st2 o => (((none : Option Nat), ["e"], o), st2)) true).2.2.1
     (some 5) ⟨⟨[], 0, false⟩, none⟩ 0 2 (some 0, none, ["e"])
     ⟨⟨[], 0, false⟩, none⟩ rfl rfl rfl⟩

end Warctools
